import Mathlib

/-!
Shallow embedding of the geospatial zone-control engine of the `ite`
repository (app/services/zone_control.py, app/services/h3_service.py,
app/services/activity_processor.py, app/models/activity.py,
app/api/risk.py, app/core/config.py) and proofs about it.

Machine floats are modelled by exact rationals; Python `int()`
truncation and `round(x, 2)` (round-half-to-even) are modelled
explicitly.  Python strings are modelled by `String` (ids) or
`List Char` (polyline payloads), Python `None` by `Option`.
-/

namespace Ite

/-- Game-balance settings from app/core/config.py (class Settings). -/
structure GameSettings where
  zone_control_threshold_km : ℚ
  zone_defense_multiplier : ℚ
  activity_points_per_km : ℚ
  team_activity_bonus : ℚ
  gym_activity_multiplier : ℚ
deriving DecidableEq, Repr

/-- The default values hard-coded in app/core/config.py:
ZONE_CONTROL_THRESHOLD_KM = 5.0, ZONE_DEFENSE_MULTIPLIER = 1.2,
ACTIVITY_POINTS_PER_KM = 10, TEAM_ACTIVITY_BONUS = 1.1,
GYM_ACTIVITY_MULTIPLIER = 0.8. -/
def defaultSettings : GameSettings :=
  { zone_control_threshold_km := 5
    zone_defense_multiplier := 12/10
    activity_points_per_km := 10
    team_activity_bonus := 11/10
    gym_activity_multiplier := 8/10 }

/-- Python `int()` on a number: truncation toward zero. -/
def pyInt (q : ℚ) : ℤ := if q < 0 then ⌈q⌉ else ⌊q⌋

/-- Python `round` to an integer: round-half-to-even. -/
def roundHalfEven (q : ℚ) : ℤ :=
  if q - (⌊q⌋ : ℚ) < 1/2 then ⌊q⌋
  else if 1/2 < q - (⌊q⌋ : ℚ) then ⌊q⌋ + 1
  else if ⌊q⌋ % 2 = 0 then ⌊q⌋ else ⌊q⌋ + 1

/-- Python `round(x, 2)`. -/
def roundTo2 (q : ℚ) : ℚ := (roundHalfEven (q * 100) : ℚ) / 100

/-! ### Zone control (app/services/zone_control.py) -/

/-- One row of the `zone_activities` window query in
`_recalculate_zone_control`: team_id (nullable), user_id, distance_km. -/
structure Contribution where
  team_id : Option String
  user_id : String
  distance_km : ℚ
deriving DecidableEq, Repr

/-- The zone columns read and written by `_recalculate_zone_control`. -/
structure Zone where
  controlled_by_team : Option String
  control_percentage : ℚ
  controlled_by_user : Option String
deriving DecidableEq, Repr

/-- One `zone_control_history` row appended by `_log_control_change`. -/
structure ControlChange where
  previous_team : Option String
  new_team : String
deriving DecidableEq, Repr

/-- Result of `_recalculate_zone_control`: the stored zone state, the
returned `control_changed` flag, and the appended history rows. -/
structure RecalcOutcome where
  zone : Zone
  control_changed : Bool
  history : List ControlChange
deriving DecidableEq, Repr

/-- Python dict accumulation `m[k] = m.get(k, 0) + v`: insertion-ordered
association list, updating an existing key in place or appending a new
key at the end. -/
def addKm : List (String × ℚ) → String → ℚ → List (String × ℚ)
  | [], k, v => [(k, v)]
  | (k', v') :: rest, k, v =>
      if k' = k then (k', v' + v) :: rest else (k', v') :: addKm rest k v

/-- The `team_km` dict of `_recalculate_zone_control`: per-team summed km
over the window, skipping contributions with no team. -/
def team_km (acts : List Contribution) : List (String × ℚ) :=
  acts.foldl (fun m a =>
    match a.team_id with
    | some t => addKm m t a.distance_km
    | none => m) []

/-- The `user_km` dict of `_recalculate_zone_control`: per-user summed km. -/
def user_km (acts : List Contribution) : List (String × ℚ) :=
  acts.foldl (fun m a => addKm m a.user_id a.distance_km) []

/-- One comparison step of Python `max(items, key=lambda x: x[1])`: the
running maximum is replaced only when the next element is strictly
greater. -/
def maxStep (b y : String × ℚ) : String × ℚ := if b.2 < y.2 then y else b

/-- Python `max(items, key=lambda x: x[1])`: the first element with
maximal second component. -/
def maxBySnd (l : List (String × ℚ)) : Option (String × ℚ) :=
  match l with
  | [] => none
  | x :: xs => some (xs.foldl maxStep x)

/-- Python `sum(d.values())`. -/
def sumSnd (l : List (String × ℚ)) : ℚ := l.foldl (fun s x => s + x.2) 0

/-- `ZoneControlService._recalculate_zone_control` as a pure function of
the zone row and the 30-day-window `zone_activities` rows (the result of
the `recorded_at >= cutoff` query). -/
def recalculate_zone_control (s : GameSettings) (zone : Zone)
    (acts : List Contribution) : RecalcOutcome :=
  if acts.isEmpty then ⟨zone, false, []⟩
  else
    let tkm := team_km acts
    let ukm := user_km acts
    match maxBySnd tkm with
    | none => ⟨zone, false, []⟩
    | some ct =>
        let total := sumSnd tkm
        let controlling_km :=
          if zone.controlled_by_team = some ct.1 then
            ct.2 * s.zone_defense_multiplier
          else ct.2
        let control_percentage := min 100 (controlling_km / total * 100)
        if 50 ≤ control_percentage ∧
            s.zone_control_threshold_km ≤ controlling_km then
          let new_team := ct.1
          let changed : Bool :=
            if zone.controlled_by_team = some new_team then false else true
          let team_users := ukm.filter (fun kv =>
            acts.any (fun a => a.user_id = kv.1 ∧ a.team_id = some new_team))
          let zone' : Zone :=
            { controlled_by_team := some new_team
              control_percentage := roundTo2 control_percentage
              controlled_by_user :=
                match maxBySnd team_users with
                | some u => some u.1
                | none => zone.controlled_by_user }
          ⟨zone', changed,
            if changed then [⟨zone.controlled_by_team, new_team⟩] else []⟩
        else ⟨zone, false, []⟩

/-! ### Distance allocation (ZoneControlService.process_activity_zones) -/

/-- One element of the `affected_zones` list built by
`process_activity_zones`. -/
structure AffectedZone where
  h3_index : String
  distance_km : ℚ
  points_earned : ℤ
deriving DecidableEq, Repr

/-- The per-zone allocation arithmetic of
`ZoneControlService.process_activity_zones`: equal split of the activity
distance over the cell list, gym multiplier applied to the per-zone km,
points from per-zone km with the zone's bonus multiplier and the team
bonus.  `bonus_multiplier` abstracts the per-zone `bonus_multiplier`
column read from the `zones` table. -/
def process_activity_zones (s : GameSettings) (bonus_multiplier : String → ℚ)
    (team_id : Option String) (h3_indexes : List String)
    (distance_km : ℚ) (is_gym : Bool) : List AffectedZone :=
  let km0 := if h3_indexes.isEmpty then 0
             else distance_km / (h3_indexes.length : ℚ)
  let km_per_zone := if is_gym then km0 * s.gym_activity_multiplier else km0
  h3_indexes.map (fun h =>
    let points0 := pyInt (km_per_zone * s.activity_points_per_km *
      bonus_multiplier h)
    let points := if team_id.isSome then
        pyInt ((points0 : ℚ) * s.team_activity_bonus)
      else points0
    { h3_index := h, distance_km := km_per_zone, points_earned := points })

/-! ### Polyline decoding (H3Service._decode_polyline, polyline_to_cells) -/

/-- Failure modes for the embedding of Python exceptions: `indexError` is
Python's IndexError from out-of-range string indexing; `decodeError`
stands for the `DecodeError` named by the spec's error-handling design
(no code in the repository raises it). -/
inductive PyError where
  | indexError
  | decodeError
deriving DecidableEq, Repr

/-- One inner `while True` loop of `_decode_polyline`: reads 5-bit groups
`b = ord(c) - 63`, ORs `(b & 0x1f) << shift` into `result`, and stops
when `b < 0x20`; running off the end of the input is Python's
IndexError. -/
def decodeChunk : List Char → ℕ → ℕ → Except PyError (ℕ × List Char)
  | [], _, _ => .error .indexError
  | c :: rest, result, shift =>
      let b : ℤ := (c.toNat : ℤ) - 63
      let result' := result ||| ((b % 32).toNat <<< shift)
      if b < 32 then .ok (result', rest)
      else decodeChunk rest result' (shift + 5)

/-- The zig-zag step of `_decode_polyline`:
`~(result >> 1) if result & 1 else result >> 1`. -/
def zigzagDecode (r : ℕ) : ℤ :=
  if r % 2 = 1 then -((r / 2 : ℕ) : ℤ) - 1 else ((r / 2 : ℕ) : ℤ)

/-- The outer `while index < len(polyline)` loop of `_decode_polyline`:
one latitude chunk then one longitude chunk per point, accumulating
deltas.  Coordinates are kept at the integer 1e5 scale (the source's
final `/ 1e5` is a pure display scaling).  The fuel argument only
bounds the recursion; with `fuel ≥ length` the fuel branch is never
reached (`decodePointsAux_congr`). -/
def decodePointsAux : ℕ → List Char → ℤ → ℤ → Except PyError (List (ℤ × ℤ))
  | _, [], _, _ => .ok []
  | 0, _ :: _, _, _ => .error .indexError
  | fuel + 1, cs@(_ :: _), lat, lng =>
      match decodeChunk cs 0 0 with
      | .error e => .error e
      | .ok (r1, cs1) =>
        match decodeChunk cs1 0 0 with
        | .error e => .error e
        | .ok (r2, cs2) =>
          let lat2 := lat + zigzagDecode r1
          let lng2 := lng + zigzagDecode r2
          match decodePointsAux fuel cs2 lat2 lng2 with
          | .error e => .error e
          | .ok pts => .ok ((lat2, lng2) :: pts)

/-- `H3Service._decode_polyline` on a Python string given as its list of
characters. -/
def decode_polyline (polyline : List Char) : Except PyError (List (ℤ × ℤ)) :=
  decodePointsAux polyline.length polyline 0 0

/-- `H3Service.polyline_to_cells`: decode, map every point to its cell,
collapse duplicates.  `lat_lng_to_cell` is the external h3 library call,
abstracted as a function of the (1e5-scaled) coordinates. -/
def polyline_to_cells (lat_lng_to_cell : ℤ × ℤ → String)
    (polyline : List Char) : Except PyError (List String) :=
  (decode_polyline polyline).map (fun pts => (pts.map lat_lng_to_cell).dedup)

/-! ### Area cells (H3Service.get_area_cells) -/

/-- The ring-count computation of `H3Service.get_area_cells`:
`k_rings = int((radius_km ** 2) / hex_area) + 1`, with `hex_area` the
external `h3.cell_area` of the center cell. -/
def get_area_cells_k_rings (radius_km hex_area : ℚ) : ℤ :=
  pyInt (radius_km ^ 2 / hex_area) + 1

/-! ### Attack preview (app/api/risk.py, preview_attack) -/

/-- The response fields of `preview_attack` that depend on its inputs. -/
structure AttackPreview where
  success_probability : ℚ
  estimated_hexagons_conquered : ℤ
  recommendation : String
deriving DecidableEq, Repr

/-- The read-only computation of the `preview_attack` endpoint: success
probability, estimated conquered hexagons, and recommendation, as a pure
function of the attacking units, the territory's defender units and
defense bonus, and its total hexagon count. -/
def preview_attack (units : ℤ) (defender_units : ℚ) (defense_bonus : ℚ)
    (total_hexagons : ℕ) : AttackPreview :=
  let attack_strength : ℚ := units
  let defense_strength := defender_units * (1 + defense_bonus)
  let success_probability :=
    if 0 < defense_strength then
      min 100 (attack_strength / defense_strength * 100)
    else 100
  let estimated_conquest := pyInt ((total_hexagons : ℚ) *
    (success_probability / 200))
  { success_probability := roundTo2 success_probability
    estimated_hexagons_conquered := estimated_conquest
    recommendation :=
      if 60 < success_probability then "GO!"
      else if 40 < success_probability then "RISKY"
      else "AVOID" }

/-! ### Activity creation validation (app/models/activity.py) -/

/-- A pydantic field as it arrives in the request payload: either absent
(the model default applies) or provided with a value. -/
inductive FieldInput (α : Type) where
  | omitted
  | provided (v : α)
deriving DecidableEq, Repr

/-- `ActivityCreate.validate_gym_zones`: rejects a truthy gym flag with a
falsy zones value, and a falsy gym flag with a truthy zones value
(Python truthiness: `None` and `[]` are falsy). -/
def validate_gym_zones (is_gym_activity : Bool)
    (v : Option (List String)) : Except String (Option (List String)) :=
  if is_gym_activity ∧ (v = none ∨ v = some []) then
    .error "Gym activities must have assigned zones"
  else if ¬is_gym_activity ∧ ¬(v = none ∨ v = some []) then
    .error "Only gym activities can have assigned zones"
  else .ok v

/-- Validation of the `assigned_zones` field of an `ActivityCreate`
payload under pydantic v2 semantics: a field validator runs only when
the field is provided; an omitted field takes its default (`None`)
without validation. -/
def activity_create_validation (is_gym_activity : Bool)
    (assigned_zones : FieldInput (Option (List String))) :
    Except String (Option (List String)) :=
  match assigned_zones with
  | .omitted => .ok none
  | .provided v => validate_gym_zones is_gym_activity v

/-! ## Helper lemmas -/

/-- The Python `max` fold returns an element of the scanned list that is
maximal, and every element strictly before it in the list is strictly
smaller (later ties never replace the running maximum). -/
theorem foldl_maxStep_spec (xs : List (String × ℚ)) :
    ∀ b : String × ℚ,
      ∃ pre post,
        b :: xs = pre ++ (xs.foldl maxStep b) :: post ∧
        (∀ y ∈ pre, y.2 < (xs.foldl maxStep b).2) ∧
        ∀ y ∈ b :: xs, y.2 ≤ (xs.foldl maxStep b).2 := by
  induction xs with
  | nil =>
      intro b
      refine ⟨[], [], rfl, by simp, ?_⟩
      intro y hy
      simp only [List.mem_singleton] at hy
      subst hy
      exact le_refl _
  | cons y ys ih =>
      intro b
      by_cases hb : b.2 < y.2
      · obtain ⟨pre, post, heq, hpre, hmax⟩ := ih y
        have hfold : (y :: ys).foldl maxStep b = ys.foldl maxStep y := by
          simp [List.foldl, maxStep, hb]
        refine ⟨b :: pre, post, ?_, ?_, ?_⟩
        · rw [hfold, List.cons_append, ← heq]
        · intro z hz
          rw [hfold]
          rcases List.mem_cons.mp hz with hz | hz
          · subst hz
            exact lt_of_lt_of_le hb (hmax y (List.mem_cons_self _ _))
          · exact hpre z hz
        · intro z hz
          rw [hfold]
          rcases List.mem_cons.mp hz with hz | hz
          · subst hz
            exact le_of_lt (lt_of_lt_of_le hb (hmax y (List.mem_cons_self _ _)))
          · exact hmax z hz
      · obtain ⟨pre, post, heq, hpre, hmax⟩ := ih b
        have hfold : (y :: ys).foldl maxStep b = ys.foldl maxStep b := by
          simp [List.foldl, maxStep, hb]
        cases pre with
        | nil =>
            simp only [List.nil_append] at heq
            injection heq with h1 h2
            refine ⟨[], y :: ys, ?_, by simp, ?_⟩
            · rw [hfold, List.nil_append, ← h1]
            · intro z hz
              rw [hfold]
              rcases List.mem_cons.mp hz with hz | hz
              · subst hz
                exact hmax _ (List.mem_cons_self _ _)
              rcases List.mem_cons.mp hz with hz2 | hz2
              · subst hz2
                exact le_trans (le_of_not_lt hb) (hmax _ (List.mem_cons_self _ _))
              · exact hmax z (List.mem_cons_of_mem _ (h2 ▸ hz2))
        | cons p pre₂ =>
            rw [List.cons_append] at heq
            injection heq with h1 h2
            refine ⟨b :: y :: pre₂, post, ?_, ?_, ?_⟩
            · rw [hfold]
              conv_lhs => rw [h2]
              simp
            · intro z hz
              rw [hfold]
              have hbr : b.2 < (ys.foldl maxStep b).2 := by
                have hbp : b.2 = p.2 := congrArg Prod.snd h1
                rw [hbp]
                exact hpre p (List.mem_cons_self _ _)
              rcases List.mem_cons.mp hz with hz | hz
              · subst hz
                exact hbr
              rcases List.mem_cons.mp hz with hz2 | hz2
              · subst hz2
                exact lt_of_le_of_lt (le_of_not_lt hb) hbr
              · exact hpre z (List.mem_cons_of_mem _ hz2)
            · intro z hz
              rw [hfold]
              rcases List.mem_cons.mp hz with hz | hz
              · subst hz
                exact hmax _ (List.mem_cons_self _ _)
              rcases List.mem_cons.mp hz with hz2 | hz2
              · subst hz2
                exact le_trans (le_of_not_lt hb) (hmax _ (List.mem_cons_self _ _))
              · exact hmax z (List.mem_cons_of_mem _ hz2)

/-- Characterisation of `maxBySnd`: it returns an element of the list
that is maximal, with everything strictly before it strictly smaller. -/
theorem maxBySnd_spec (l : List (String × ℚ)) (m : String × ℚ)
    (h : maxBySnd l = some m) :
    ∃ pre post, l = pre ++ m :: post ∧ (∀ y ∈ pre, y.2 < m.2) ∧
      ∀ y ∈ l, y.2 ≤ m.2 := by
  cases l with
  | nil => simp [maxBySnd] at h
  | cons x xs =>
      have hm : xs.foldl maxStep x = m := by
        simpa [maxBySnd] using h
      obtain ⟨pre, post, heq, hpre, hmax⟩ := foldl_maxStep_spec xs x
      rw [hm] at heq hpre hmax
      exact ⟨pre, post, heq, hpre, hmax⟩

/-- `addKm` preserves nonnegativity of all stored values. -/
theorem addKm_nonneg (k : String) (v : ℚ) (hv : 0 ≤ v) :
    ∀ m : List (String × ℚ), (∀ x ∈ m, 0 ≤ x.2) →
      ∀ x ∈ addKm m k v, 0 ≤ x.2 := by
  intro m
  induction m with
  | nil =>
      intro _ x hx
      simp only [addKm, List.mem_singleton] at hx
      subst hx
      exact hv
  | cons y ys ih =>
      obtain ⟨k₁, v₁⟩ := y
      intro hm x hx
      simp only [addKm] at hx
      by_cases hk : k₁ = k
      · rw [if_pos hk] at hx
        rcases List.mem_cons.mp hx with hx | hx
        · subst hx
          exact add_nonneg (hm (k₁, v₁) (List.mem_cons_self _ _)) hv
        · exact hm x (List.mem_cons_of_mem _ hx)
      · rw [if_neg hk] at hx
        rcases List.mem_cons.mp hx with hx | hx
        · subst hx
          exact hm _ (List.mem_cons_self _ _)
        · exact ih (fun z hz => hm z (List.mem_cons_of_mem _ hz)) x hx

/-- With nonnegative contribution distances, every per-team total in
`team_km` is nonnegative. -/
theorem team_km_nonneg (acts : List Contribution)
    (h : ∀ a ∈ acts, 0 ≤ a.distance_km) :
    ∀ x ∈ team_km acts, 0 ≤ x.2 := by
  suffices H : ∀ (l : List Contribution) (m : List (String × ℚ)),
      (∀ a ∈ l, 0 ≤ a.distance_km) → (∀ x ∈ m, 0 ≤ x.2) →
      ∀ x ∈ l.foldl (fun m a =>
        match a.team_id with
        | some t => addKm m t a.distance_km
        | none => m) m, 0 ≤ x.2 by
    exact H acts [] h (by simp)
  intro l
  induction l with
  | nil => intro m _ hm x hx; exact hm x hx
  | cons a l ih =>
      intro m hl hm x hx
      simp only [List.foldl_cons] at hx
      refine ih _ (fun z hz => hl z (List.mem_cons_of_mem _ hz)) ?_ x hx
      cases ha : a.team_id with
      | none => simpa [ha] using hm
      | some t =>
          simp only [ha]
          exact addKm_nonneg t a.distance_km (hl a (List.mem_cons_self _ _)) m hm

/-- The sum of nonnegative values is nonnegative. -/
theorem sumSnd_nonneg (l : List (String × ℚ))
    (h : ∀ x ∈ l, 0 ≤ x.2) : 0 ≤ sumSnd l := by
  suffices H : ∀ (l : List (String × ℚ)) (acc : ℚ),
      (∀ x ∈ l, 0 ≤ x.2) → 0 ≤ acc →
      0 ≤ l.foldl (fun s x => s + x.2) acc by
    exact H l 0 h (le_refl 0)
  intro l
  induction l with
  | nil => intro acc _ hacc; exact hacc
  | cons y ys ih =>
      intro acc hl hacc
      simp only [List.foldl_cons]
      exact ih _ (fun z hz => hl z (List.mem_cons_of_mem _ hz))
        (add_nonneg hacc (hl y (List.mem_cons_self _ _)))

/-- If no contribution in the window carries a team id, the `team_km`
dict is empty. -/
theorem team_km_eq_nil (acts : List Contribution)
    (h : ∀ a ∈ acts, a.team_id = none) : team_km acts = [] := by
  suffices H : ∀ (l : List Contribution) (m : List (String × ℚ)),
      (∀ a ∈ l, a.team_id = none) →
      l.foldl (fun m a =>
        match a.team_id with
        | some t => addKm m t a.distance_km
        | none => m) m = m by
    exact H acts [] h
  intro l
  induction l with
  | nil => intro m _; rfl
  | cons a l ih =>
      intro m hl
      simp only [List.foldl_cons, hl a (List.mem_cons_self _ _)]
      exact ih m (fun z hz => hl z (List.mem_cons_of_mem _ hz))

/-- When the commit condition of `_recalculate_zone_control` fails (the
control percentage test or the threshold test, both computed on the
defense-boosted `controlling_km`), the zone row, the returned flag and
the history log are all untouched. -/
theorem recalc_of_not_commit (s : GameSettings) (zone : Zone)
    (acts : List Contribution) (c : String) (km : ℚ)
    (hie : acts.isEmpty = false)
    (hmax : maxBySnd (team_km acts) = some (c, km))
    (hcond : ¬(50 ≤ min 100
        ((if zone.controlled_by_team = some c then
            km * s.zone_defense_multiplier else km) /
          sumSnd (team_km acts) * 100) ∧
        s.zone_control_threshold_km ≤
          (if zone.controlled_by_team = some c then
            km * s.zone_defense_multiplier else km))) :
    recalculate_zone_control s zone acts = ⟨zone, false, []⟩ := by
  rw [recalculate_zone_control]
  rw [hie]
  simp only [Bool.false_eq_true, if_false, hmax]
  rw [if_neg hcond]

/-- When the commit condition of `_recalculate_zone_control` holds, the
zone row is rewritten with the candidate team, the rounded percentage
and the top contributing user of the candidate team; the flag and the
history log record whether the controller actually changed. -/
theorem recalc_of_commit (s : GameSettings) (zone : Zone)
    (acts : List Contribution) (c : String) (km : ℚ)
    (hie : acts.isEmpty = false)
    (hmax : maxBySnd (team_km acts) = some (c, km))
    (h1 : 50 ≤ min 100
        ((if zone.controlled_by_team = some c then
            km * s.zone_defense_multiplier else km) /
          sumSnd (team_km acts) * 100))
    (h2 : s.zone_control_threshold_km ≤
        (if zone.controlled_by_team = some c then
          km * s.zone_defense_multiplier else km)) :
    recalculate_zone_control s zone acts =
      ⟨⟨some c,
        roundTo2 (min 100
          ((if zone.controlled_by_team = some c then
              km * s.zone_defense_multiplier else km) /
            sumSnd (team_km acts) * 100)),
        match maxBySnd ((user_km acts).filter (fun kv =>
            acts.any (fun a => a.user_id = kv.1 ∧ a.team_id = some c))) with
        | some u => some u.1
        | none => zone.controlled_by_user⟩,
       if zone.controlled_by_team = some c then false else true,
       if zone.controlled_by_team = some c then []
       else [⟨zone.controlled_by_team, c⟩]⟩ := by
  rw [recalculate_zone_control]
  rw [hie]
  simp only [Bool.false_eq_true, if_false, hmax]
  rw [if_pos ⟨h1, h2⟩]
  by_cases hct : zone.controlled_by_team = some c
  · simp [hct]
  · simp [hct]

/-- A recalculation over a zone already controlled by the candidate team
commits with the defense-boosted percentage, reports no change and logs
nothing. -/
theorem recalc_second_run (s : GameSettings) (acts : List Contribution)
    (c : String) (km : ℚ)
    (hie : acts.isEmpty = false)
    (hmax : maxBySnd (team_km acts) = some (c, km))
    (hc1 : 50 ≤ min 100
        (km * s.zone_defense_multiplier / sumSnd (team_km acts) * 100))
    (hc2 : s.zone_control_threshold_km ≤ km * s.zone_defense_multiplier)
    (z : Zone) (hz : z.controlled_by_team = some c) :
    recalculate_zone_control s z acts =
      ⟨⟨some c,
        roundTo2 (min 100
          (km * s.zone_defense_multiplier / sumSnd (team_km acts) * 100)),
        match maxBySnd ((user_km acts).filter (fun kv =>
            acts.any (fun a => a.user_id = kv.1 ∧ a.team_id = some c))) with
        | some u => some u.1
        | none => z.controlled_by_user⟩,
       false, []⟩ := by
  have e := recalc_of_commit s z acts c km hie hmax
    (by rw [hz]; simpa using hc1) (by rw [hz]; simpa using hc2)
  rw [e]
  simp [hz]

/-- Every failure of the inner 5-bit-group loop is an IndexError. -/
theorem decodeChunk_error_eq (cs : List Char) :
    ∀ (r sh : ℕ) (e : PyError),
      decodeChunk cs r sh = .error e → e = .indexError := by
  induction cs with
  | nil =>
      intro r sh e h
      simp only [decodeChunk, Except.error.injEq] at h
      exact h.symm
  | cons ch rest ih =>
      intro r sh e h
      simp only [decodeChunk] at h
      by_cases hb : ((ch.toNat : ℤ) - 63) < 32
      · rw [if_pos hb] at h
        simp at h
      · rw [if_neg hb] at h
        exact ih _ _ _ h

/-- Every failure of the point-decoding loop is an IndexError. -/
theorem decodePointsAux_error_eq :
    ∀ (fuel : ℕ) (cs : List Char) (lat lng : ℤ) (e : PyError),
      decodePointsAux fuel cs lat lng = .error e → e = .indexError := by
  intro fuel
  induction fuel with
  | zero =>
      intro cs lat lng e h
      cases cs with
      | nil => simp [decodePointsAux] at h
      | cons c rest =>
          simp only [decodePointsAux, Except.error.injEq] at h
          exact h.symm
  | succ fuel ih =>
      intro cs lat lng e h
      cases cs with
      | nil => simp [decodePointsAux] at h
      | cons c rest =>
          simp only [decodePointsAux] at h
          cases h1 : decodeChunk (c :: rest) 0 0 with
          | error e1 =>
              simp only [h1, Except.error.injEq] at h
              rw [← h]
              exact decodeChunk_error_eq _ _ _ _ h1
          | ok p1 =>
              obtain ⟨r1, cs1⟩ := p1
              simp only [h1] at h
              cases h2 : decodeChunk cs1 0 0 with
              | error e2 =>
                  simp only [h2, Except.error.injEq] at h
                  rw [← h]
                  exact decodeChunk_error_eq _ _ _ _ h2
              | ok p2 =>
                  obtain ⟨r2, cs2⟩ := p2
                  simp only [h2] at h
                  cases h3 : decodePointsAux fuel cs2 (lat + zigzagDecode r1)
                      (lng + zigzagDecode r2) with
                  | error e3 =>
                      simp only [h3, Except.error.injEq] at h
                      rw [← h]
                      exact ih _ _ _ _ h3
                  | ok pts =>
                      simp only [h3] at h
                      simp at h

/-! ## Claim theorems -/

/-- Claim C1 (counterexample): a gym-flagged activity of 10 km over two
cells allocates 4 km to each cell, summing to 8 km ≠ 10 km — the gym
multiplier (0.8) is applied to the per-cell distance, so the equal split
is not distance-preserving for gym-flagged activities. -/
theorem c1_gym_sum_counterexample :
    ((process_activity_zones defaultSettings (fun _ => 1) none
      ["a", "b"] 10 true).map (fun z => z.distance_km)).sum = 8 ∧
    (8 : ℚ) ≠ 10 := by
  constructor
  · norm_num [process_activity_zones, defaultSettings, pyInt]
  · norm_num

/-- Claim C1 (amended): over a non-empty cell set the per-cell allocated
distances of `process_activity_zones` sum to the activity distance for a
GPS activity, and to the activity distance times the gym multiplier
(0.8) for a gym-flagged activity. -/
theorem c1_alloc_sum (s : GameSettings) (bonus_multiplier : String → ℚ)
    (team_id : Option String) (h3_indexes : List String) (distance_km : ℚ)
    (is_gym : Bool) (hne : h3_indexes ≠ []) :
    ((process_activity_zones s bonus_multiplier team_id h3_indexes
        distance_km is_gym).map (fun z => z.distance_km)).sum =
      distance_km * (if is_gym then s.gym_activity_multiplier else 1) := by
  have hie : h3_indexes.isEmpty = false := by
    cases h3_indexes with
    | nil => exact absurd rfl hne
    | cons a l => rfl
  have hlen : (h3_indexes.length : ℚ) ≠ 0 := by
    exact_mod_cast fun hl => hne (List.length_eq_zero.mp (by exact_mod_cast hl))
  simp only [process_activity_zones, hie, Bool.false_eq_true, if_false,
    List.map_map]
  have hcomp : ((fun z => z.distance_km) ∘ fun h =>
      (⟨h, if is_gym then distance_km / (h3_indexes.length : ℚ) *
            s.gym_activity_multiplier
          else distance_km / (h3_indexes.length : ℚ),
        if team_id.isSome then
          pyInt ((pyInt ((if is_gym then
              distance_km / (h3_indexes.length : ℚ) *
                s.gym_activity_multiplier
            else distance_km / (h3_indexes.length : ℚ)) *
            s.activity_points_per_km * bonus_multiplier h) : ℚ) *
            s.team_activity_bonus)
        else pyInt ((if is_gym then
            distance_km / (h3_indexes.length : ℚ) *
              s.gym_activity_multiplier
          else distance_km / (h3_indexes.length : ℚ)) *
          s.activity_points_per_km * bonus_multiplier h)⟩ : AffectedZone)) =
      fun _ => (if is_gym then distance_km / (h3_indexes.length : ℚ) *
          s.gym_activity_multiplier
        else distance_km / (h3_indexes.length : ℚ)) := rfl
  rw [hcomp, List.map_const', List.sum_replicate, nsmul_eq_mul]
  by_cases hg : is_gym
  · rw [if_pos hg, if_pos hg]
    field_simp
  · rw [if_neg hg, if_neg hg]
    field_simp

/-- Claim C1 witness: concrete instance of the amended sum theorem. -/
theorem c1_alloc_sum_witness :
    (["a", "b"] : List String) ≠ [] ∧
    ((process_activity_zones defaultSettings (fun _ => 1) none
        ["a", "b"] 10 false).map (fun z => z.distance_km)).sum =
      10 * (if false then defaultSettings.gym_activity_multiplier else 1) :=
  ⟨by decide, c1_alloc_sum defaultSettings (fun _ => 1) none ["a", "b"]
    10 false (by decide)⟩

/-- Claim C6 (counterexample): the malformed polyline "a" makes decoding
fail with the generic IndexError of out-of-range string indexing, not
with the `DecodeError` named by the claim (no such error exists in the
code). -/
theorem c6_decode_error_kind_counterexample :
    decode_polyline ['a'] = .error .indexError ∧
    PyError.indexError ≠ PyError.decodeError :=
  ⟨rfl, by decide⟩

/-- Claim C6 (amended): decoding the empty polyline yields the empty
point sequence (and `polyline_to_cells` the empty cell sequence), the
malformed polyline "a" fails, and every decode failure is an IndexError
(the decoder never silently truncates: a failure aborts the whole
decode rather than returning the points accumulated so far). -/
theorem c6_decode_empty_and_error_kind :
    decode_polyline [] = .ok [] ∧
    (∀ lat_lng_to_cell : ℤ × ℤ → String,
      polyline_to_cells lat_lng_to_cell [] = .ok []) ∧
    decode_polyline ['a'] = .error .indexError ∧
    (∀ (polyline : List Char) (e : PyError),
      decode_polyline polyline = .error e → e = PyError.indexError) :=
  ⟨rfl, fun _ => rfl, rfl,
    fun polyline e h =>
      decodePointsAux_error_eq polyline.length polyline 0 0 e h⟩

/-- Claim C6 witness: the error-kind clause applied to the concrete
malformed input "a". -/
theorem c6_decode_empty_and_error_kind_witness :
    PyError.indexError = PyError.indexError :=
  c6_decode_empty_and_error_kind.2.2.2 ['a'] PyError.indexError rfl

/-- Claim C7 (code bug): a gym-flagged `ActivityCreate` payload that
simply omits `assigned_zones` passes validation (pydantic v2 does not
run field validators on defaulted fields) even though the validator
itself rejects a provided empty value — the claim's required rejection
does not happen on the omission path. -/
theorem c7_gym_omitted_accepted :
    activity_create_validation true .omitted = .ok none ∧
    validate_gym_zones true none =
      .error "Gym activities must have assigned zones" :=
  ⟨rfl, rfl⟩

/-- Claim C8 (counterexample): at exactly 40% success probability
(2 attacking units against 5 defending units with no defense bonus) the
code recommends `AVOID`, while the claim's 40–60% band calls for
`RISKY`. -/
theorem c8_boundary_counterexample :
    (preview_attack 2 5 0 10).success_probability = 40 ∧
    (preview_attack 2 5 0 10).recommendation = "AVOID" := by
  constructor
  · norm_num [preview_attack, roundTo2, roundHalfEven]
  · norm_num [preview_attack]

/-- Claim C8 (amended): with a positive effective defense strength, the
preview's success probability is `round(min(100, units /
(defender_units × (1 + defense_bonus)) × 100), 2)` and the
recommendation bands are `GO!` strictly above 60, `RISKY` strictly
above 40 up to 60, and `AVOID` at or below 40. -/
theorem c8_preview_characterization (units : ℤ)
    (defender_units defense_bonus : ℚ) (total_hexagons : ℕ)
    (hpos : 0 < defender_units * (1 + defense_bonus)) :
    (preview_attack units defender_units defense_bonus
        total_hexagons).success_probability =
      roundTo2 (min 100 ((units : ℚ) /
        (defender_units * (1 + defense_bonus)) * 100)) ∧
    ((preview_attack units defender_units defense_bonus
        total_hexagons).recommendation = "GO!" ↔
      60 < min 100 ((units : ℚ) /
        (defender_units * (1 + defense_bonus)) * 100)) ∧
    ((preview_attack units defender_units defense_bonus
        total_hexagons).recommendation = "RISKY" ↔
      (40 < min 100 ((units : ℚ) /
          (defender_units * (1 + defense_bonus)) * 100) ∧
        min 100 ((units : ℚ) /
          (defender_units * (1 + defense_bonus)) * 100) ≤ 60)) ∧
    ((preview_attack units defender_units defense_bonus
        total_hexagons).recommendation = "AVOID" ↔
      min 100 ((units : ℚ) /
        (defender_units * (1 + defense_bonus)) * 100) ≤ 40) := by
  unfold preview_attack
  simp only [if_pos hpos]
  refine ⟨trivial, ?_, ?_, ?_⟩
  · by_cases h60 : 60 < min 100 ((units : ℚ) /
        (defender_units * (1 + defense_bonus)) * 100)
    · simp [h60]
    · by_cases h40 : 40 < min 100 ((units : ℚ) /
          (defender_units * (1 + defense_bonus)) * 100)
      · simp [h60, h40]
      · simp [h60, h40]
  · by_cases h60 : 60 < min 100 ((units : ℚ) /
        (defender_units * (1 + defense_bonus)) * 100)
    · simp [h60, not_le.mpr h60]
    · by_cases h40 : 40 < min 100 ((units : ℚ) /
          (defender_units * (1 + defense_bonus)) * 100)
      · simp [h60, h40, le_of_not_lt h60]
      · simp [h60, h40]
  · by_cases h60 : 60 < min 100 ((units : ℚ) /
        (defender_units * (1 + defense_bonus)) * 100)
    · simp [h60, not_le.mpr (lt_trans (by norm_num : (40:ℚ) < 60) h60)]
    · by_cases h40 : 40 < min 100 ((units : ℚ) /
          (defender_units * (1 + defense_bonus)) * 100)
      · simp [h60, h40, not_le.mpr h40]
      · simp [h60, h40, le_of_not_lt h40]

/-- Claim C8 witness: an overwhelming attack (90 units against 1
defending unit, no bonus) is recommended `GO!`. -/
theorem c8_preview_characterization_witness :
    (0 : ℚ) < 1 * (1 + 0) ∧
    ((preview_attack 90 1 0 10).recommendation = "GO!" ↔
      60 < min 100 (((90 : ℤ) : ℚ) / ((1 : ℚ) * (1 + 0)) * 100)) :=
  ⟨by norm_num,
    (c8_preview_characterization 90 1 0 10 (by norm_num)).2.1⟩

/-- Claim C9 (counterexample): for radius 1.5 km and cell area 1 km² the
code computes `int(2.25) + 1 = 3` rings, while the claim's formula
`ceil(2.25) + 1 = 4` gives one more — the code truncates with `int()`,
it does not take a ceiling. -/
theorem c9_ceil_counterexample :
    get_area_cells_k_rings (3/2) 1 = 3 ∧
    (⌈((3/2 : ℚ)^2 / 1)⌉ : ℤ) + 1 = 4 := by
  constructor
  · norm_num [get_area_cells_k_rings, pyInt]
  · have h : ((3/2 : ℚ)^2 / 1) = 9/4 := by norm_num
    have h2 : (⌈(9/4 : ℚ)⌉ : ℤ) = 3 := by
      rw [Int.ceil_eq_iff]
      norm_num
    rw [h, h2]
    decide

/-- Claim C9 (amended): for a nonnegative radius and positive cell area
the ring count is `floor(radius² / cell_area) + 1`, which is always at
least `ceil(radius² / cell_area)` (so the disk never has fewer rings
than the area-based estimate requires). -/
theorem c9_k_rings_floor (radius_km hex_area : ℚ)
    (ha : 0 < hex_area) :
    get_area_cells_k_rings radius_km hex_area =
      ⌊radius_km^2 / hex_area⌋ + 1 ∧
    ⌈radius_km^2 / hex_area⌉ ≤ get_area_cells_k_rings radius_km hex_area := by
  have hd : 0 ≤ radius_km^2 / hex_area := div_nonneg (sq_nonneg _) ha.le
  have he : get_area_cells_k_rings radius_km hex_area =
      ⌊radius_km^2 / hex_area⌋ + 1 := by
    unfold get_area_cells_k_rings pyInt
    rw [if_neg (not_lt.mpr hd)]
  refine ⟨he, ?_⟩
  rw [he]
  exact Int.ceil_le_floor_add_one _

/-- Claim C9 witness: concrete instance at radius 1.5 km and area
1 km². -/
theorem c9_k_rings_floor_witness :
    (0 : ℚ) < 1 ∧
    ⌈(3/2 : ℚ)^2 / 1⌉ ≤ get_area_cells_k_rings (3/2) 1 :=
  ⟨by norm_num, (c9_k_rings_floor (3/2) 1 (by norm_num)).2⟩

/-- Claim C10: a recalculation window containing only teamless
contributions makes no control decision: the zone row, the flag and the
history log are all unchanged, regardless of the summed distance. -/
theorem c10_teamless_noop (s : GameSettings) (zone : Zone)
    (acts : List Contribution) (h : ∀ a ∈ acts, a.team_id = none) :
    recalculate_zone_control s zone acts = ⟨zone, false, []⟩ := by
  by_cases hie : acts.isEmpty
  · simp [recalculate_zone_control, hie]
  · have hie' : acts.isEmpty = false := by simpa using hie
    rw [recalculate_zone_control, hie']
    simp [team_km_eq_nil acts h, maxBySnd]

/-- Claim C10 witness: a single 1000 km teamless contribution leaves the
neutral zone untouched. -/
theorem c10_teamless_noop_witness :
    (∀ a ∈ [(⟨none, "u1", 1000⟩ : Contribution)], a.team_id = none) ∧
    recalculate_zone_control defaultSettings ⟨none, 0, none⟩
      [⟨none, "u1", 1000⟩] = ⟨⟨none, 0, none⟩, false, []⟩ :=
  ⟨by decide, c10_teamless_noop defaultSettings ⟨none, 0, none⟩
    [⟨none, "u1", 1000⟩] (by decide)⟩

/-- Claim C2 (counterexample): with incumbent t1 at 10 km and challenger
t2 at 11 km (11 ≤ 10 × 1.2, the defense-boosted incumbent strength),
recalculation hands control to t2: the defense multiplier never shields
an incumbent against a challenger with strictly larger raw distance. -/
theorem c2_defense_counterexample :
    (10 : ℚ) < 11 ∧
    (11 : ℚ) ≤ 10 * defaultSettings.zone_defense_multiplier ∧
    (recalculate_zone_control defaultSettings ⟨some "t1", 100, some "u1"⟩
      [⟨some "t1", "u1", 10⟩, ⟨some "t2", "u2", 11⟩]).zone.controlled_by_team
      = some "t2" ∧
    (recalculate_zone_control defaultSettings ⟨some "t1", 100, some "u1"⟩
      [⟨some "t1", "u1", 10⟩, ⟨some "t2", "u2", 11⟩]).control_changed
      = true := by
  have h : recalculate_zone_control defaultSettings ⟨some "t1", 100, some "u1"⟩
      [⟨some "t1", "u1", 10⟩, ⟨some "t2", "u2", 11⟩] =
      ⟨⟨some "t2", roundTo2 (min 100 ((11 : ℚ) / 21 * 100)), some "u2"⟩, true,
        [⟨some "t1", "t2"⟩]⟩ := by
    simp [recalculate_zone_control, defaultSettings, team_km, user_km,
      addKm, maxBySnd, maxStep, sumSnd]
    simp [show ((10 : ℚ) < 11) from by norm_num]
    norm_num
  refine ⟨by norm_num, by norm_num [defaultSettings], ?_, ?_⟩
  · rw [h]
  · rw [h]

/-- Claim C2 (amended): a challenging team that is selected as the raw
maximum of the window takes control whenever its share of the window
distance reaches 50% and its raw distance meets the threshold; the
defense multiplier plays no role when the candidate is not the
incumbent. -/
theorem c2_raw_superior_takes_control (s : GameSettings) (zone : Zone)
    (acts : List Contribution) (c : String) (km : ℚ)
    (hie : acts.isEmpty = false)
    (hmax : maxBySnd (team_km acts) = some (c, km))
    (hinc : zone.controlled_by_team ≠ some c)
    (hpct : 50 ≤ min 100 (km / sumSnd (team_km acts) * 100))
    (hthr : s.zone_control_threshold_km ≤ km) :
    (recalculate_zone_control s zone acts).zone.controlled_by_team = some c ∧
    (recalculate_zone_control s zone acts).control_changed = true := by
  have h1 : 50 ≤ min 100
      ((if zone.controlled_by_team = some c then
          km * s.zone_defense_multiplier else km) /
        sumSnd (team_km acts) * 100) := by
    rw [if_neg hinc]
    exact hpct
  have h2 : s.zone_control_threshold_km ≤
      (if zone.controlled_by_team = some c then
        km * s.zone_defense_multiplier else km) := by
    rw [if_neg hinc]
    exact hthr
  rw [recalc_of_commit s zone acts c km hie hmax h1 h2]
  exact ⟨rfl, by simp [hinc]⟩

/-- Claim C2 witness: concrete instance of the amended theorem at the
10 km incumbent / 11 km challenger window. -/
theorem c2_raw_superior_takes_control_witness :
    (recalculate_zone_control defaultSettings ⟨some "t1", 100, some "u1"⟩
      [⟨some "t1", "u1", 10⟩, ⟨some "t2", "u2", 11⟩]).zone.controlled_by_team
      = some "t2" := by
  have htk : team_km [⟨some "t1", "u1", 10⟩, ⟨some "t2", "u2", 11⟩] =
      [("t1", 10), ("t2", 11)] := by
    simp [team_km, addKm]
  have hmax : maxBySnd (team_km
      [⟨some "t1", "u1", 10⟩, ⟨some "t2", "u2", 11⟩]) = some ("t2", 11) := by
    rw [htk]
    simp [maxBySnd, maxStep, show ((10 : ℚ) < 11) from by norm_num]
  exact (c2_raw_superior_takes_control defaultSettings
    ⟨some "t1", 100, some "u1"⟩
    [⟨some "t1", "u1", 10⟩, ⟨some "t2", "u2", 11⟩] "t2" 11 rfl hmax
    (by simp)
    (by rw [htk]; norm_num [sumSnd])
    (by norm_num [defaultSettings])).1

/-- Claim C3 (counterexample): a single incumbent contribution of 4.5 km
is below the 5 km threshold, yet the zone row is rewritten (percentage
100, top user set) because the code compares the threshold against the
defense-boosted 4.5 × 1.2 = 5.4 km, not against the raw distance as the
claim states. -/
theorem c3_threshold_counterexample :
    (9/2 : ℚ) < defaultSettings.zone_control_threshold_km ∧
    (recalculate_zone_control defaultSettings ⟨some "t1", 30, none⟩
      [⟨some "t1", "u1", 9/2⟩]).zone = ⟨some "t1", 100, some "u1"⟩ ∧
    (⟨some "t1", 100, some "u1"⟩ : Zone) ≠ ⟨some "t1", 30, none⟩ := by
  refine ⟨by norm_num [defaultSettings], ?_, by decide⟩
  have h : recalculate_zone_control defaultSettings ⟨some "t1", 30, none⟩
      [⟨some "t1", "u1", 9/2⟩] = ⟨⟨some "t1", 100, some "u1"⟩, false, []⟩ := by
    simp [recalculate_zone_control, defaultSettings, team_km, user_km,
      addKm, maxBySnd, maxStep, sumSnd]
    norm_num [roundTo2, roundHalfEven]
  rw [h]

/-- Claim C3 (amended): for a non-empty window with candidate `(c, km)`,
the zone update is committed exactly when `control_percentage ≥ 50` and
the **effective** distance — defense-boosted when the candidate is the
incumbent — meets the threshold; when the conjunction fails the zone
row, flag and history are untouched. -/
theorem c3_commit_condition (s : GameSettings) (zone : Zone)
    (acts : List Contribution) (c : String) (km : ℚ)
    (hie : acts.isEmpty = false)
    (hmax : maxBySnd (team_km acts) = some (c, km)) :
    (¬(50 ≤ min 100 ((if zone.controlled_by_team = some c then
          km * s.zone_defense_multiplier else km) /
            sumSnd (team_km acts) * 100) ∧
        s.zone_control_threshold_km ≤
          (if zone.controlled_by_team = some c then
            km * s.zone_defense_multiplier else km)) →
      recalculate_zone_control s zone acts = ⟨zone, false, []⟩) ∧
    ((50 ≤ min 100 ((if zone.controlled_by_team = some c then
          km * s.zone_defense_multiplier else km) /
            sumSnd (team_km acts) * 100) ∧
        s.zone_control_threshold_km ≤
          (if zone.controlled_by_team = some c then
            km * s.zone_defense_multiplier else km)) →
      (recalculate_zone_control s zone acts).zone.controlled_by_team
          = some c ∧
      (recalculate_zone_control s zone acts).zone.control_percentage
          = roundTo2 (min 100 ((if zone.controlled_by_team = some c then
              km * s.zone_defense_multiplier else km) /
            sumSnd (team_km acts) * 100))) := by
  constructor
  · intro hcond
    exact recalc_of_not_commit s zone acts c km hie hmax hcond
  · intro hcond
    rw [recalc_of_commit s zone acts c km hie hmax hcond.1 hcond.2]
    exact ⟨rfl, rfl⟩

/-- Claim C3 witness: at the 4.5 km incumbent window the commit branch
fires (via the boosted distance) and rewrites the stored percentage. -/
theorem c3_commit_condition_witness :
    (recalculate_zone_control defaultSettings ⟨some "t1", 30, none⟩
      [⟨some "t1", "u1", 9/2⟩]).zone.controlled_by_team = some "t1" := by
  have htk : team_km [⟨some "t1", "u1", 9/2⟩] = [("t1", 9/2)] := by
    simp [team_km, addKm]
  have hmax : maxBySnd (team_km [⟨some "t1", "u1", 9/2⟩]) =
      some ("t1", 9/2) := by
    rw [htk]
    simp [maxBySnd, maxStep]
  exact ((c3_commit_condition defaultSettings ⟨some "t1", 30, none⟩
    [⟨some "t1", "u1", 9/2⟩] "t1" (9/2) rfl hmax).2
    (by rw [htk]; norm_num [sumSnd, defaultSettings])).1

/-- Claim C4 (counterexample): after a control flip at 60% the second
recalculation over the same window stores percentage 72 (the defense
boost now applies to the incumbent candidate), so the stored zone state
is not left exactly as after the first run. -/
theorem c4_percentage_counterexample :
    (recalculate_zone_control defaultSettings
      (recalculate_zone_control defaultSettings ⟨none, 0, none⟩
        [⟨some "t1", "u1", 6⟩, ⟨some "t2", "u2", 4⟩]).zone
      [⟨some "t1", "u1", 6⟩, ⟨some "t2", "u2", 4⟩]).zone.control_percentage
    ≠
    (recalculate_zone_control defaultSettings ⟨none, 0, none⟩
      [⟨some "t1", "u1", 6⟩, ⟨some "t2", "u2", 4⟩]).zone.control_percentage
    := by
  have h1 : recalculate_zone_control defaultSettings ⟨none, 0, none⟩
      [⟨some "t1", "u1", 6⟩, ⟨some "t2", "u2", 4⟩] =
      ⟨⟨some "t1", 60, some "u1"⟩, true, [⟨none, "t1"⟩]⟩ := by
    simp [recalculate_zone_control, defaultSettings, team_km, user_km,
      addKm, maxBySnd, maxStep, sumSnd]
    simp [show ¬((6 : ℚ) < 4) from by norm_num]
    norm_num [roundTo2, roundHalfEven]
  have h2 : recalculate_zone_control defaultSettings
      ⟨some "t1", 60, some "u1"⟩
      [⟨some "t1", "u1", 6⟩, ⟨some "t2", "u2", 4⟩] =
      ⟨⟨some "t1", 72, some "u1"⟩, false, []⟩ := by
    simp [recalculate_zone_control, defaultSettings, team_km, user_km,
      addKm, maxBySnd, maxStep, sumSnd]
    simp [show ¬((6 : ℚ) < 4) from by norm_num]
    norm_num [roundTo2, roundHalfEven]
  rw [h1, h2]
  norm_num

/-- Claim C4 (amended): with a defense multiplier ≥ 1 and nonnegative
window distances, a second recalculation over the same window keeps the
controller and the top user, returns `control_changed = false` and
appends no history row; only the stored control percentage may move
(upward, to the defense-boosted value) after a flip. -/
theorem c4_recalc_stable (s : GameSettings) (zone : Zone)
    (acts : List Contribution)
    (hmult : 1 ≤ s.zone_defense_multiplier)
    (hnn : ∀ a ∈ acts, 0 ≤ a.distance_km) :
    (recalculate_zone_control s
        (recalculate_zone_control s zone acts).zone acts).zone.controlled_by_team
      = (recalculate_zone_control s zone acts).zone.controlled_by_team ∧
    (recalculate_zone_control s
        (recalculate_zone_control s zone acts).zone acts).zone.controlled_by_user
      = (recalculate_zone_control s zone acts).zone.controlled_by_user ∧
    (recalculate_zone_control s
        (recalculate_zone_control s zone acts).zone acts).control_changed
      = false ∧
    (recalculate_zone_control s
        (recalculate_zone_control s zone acts).zone acts).history = [] := by
  by_cases hie : acts.isEmpty
  · have h1 : recalculate_zone_control s zone acts = ⟨zone, false, []⟩ := by
      simp [recalculate_zone_control, hie]
    simp [h1]
  · have hie' : acts.isEmpty = false := by simpa using hie
    cases hmaxo : maxBySnd (team_km acts) with
    | none =>
        have h1 : recalculate_zone_control s zone acts = ⟨zone, false, []⟩ := by
          rw [recalculate_zone_control, hie']
          simp [hmaxo]
        simp [h1]
    | some ct =>
        obtain ⟨c, km⟩ := ct
        have hkm0 : 0 ≤ km := by
          obtain ⟨pre, post, heq, -, -⟩ := maxBySnd_spec _ _ hmaxo
          refine team_km_nonneg acts hnn (c, km) ?_
          rw [heq]
          exact List.mem_append.mpr (Or.inr (List.mem_cons_self _ _))
        have htot : 0 ≤ sumSnd (team_km acts) :=
          sumSnd_nonneg _ (team_km_nonneg acts hnn)
        have hboost : km ≤ km * s.zone_defense_multiplier :=
          le_mul_of_one_le_right hkm0 hmult
        by_cases hcond : 50 ≤ min 100
            ((if zone.controlled_by_team = some c then
                km * s.zone_defense_multiplier else km) /
              sumSnd (team_km acts) * 100) ∧
            s.zone_control_threshold_km ≤
              (if zone.controlled_by_team = some c then
                km * s.zone_defense_multiplier else km)
        · have hidle : (if zone.controlled_by_team = some c then
              km * s.zone_defense_multiplier else km) ≤
              km * s.zone_defense_multiplier := by
            split_ifs
            · exact le_refl _
            · exact hboost
          have hdiv : (if zone.controlled_by_team = some c then
              km * s.zone_defense_multiplier else km) /
                sumSnd (team_km acts) * 100 ≤
              km * s.zone_defense_multiplier / sumSnd (team_km acts) * 100 := by
            rcases htot.eq_or_gt with h0 | h0
            · rw [h0]
              simp
            · exact mul_le_mul_of_nonneg_right
                ((div_le_div_iff_of_pos_right h0).mpr hidle) (by norm_num)
          have hc1 : 50 ≤ min 100
              (km * s.zone_defense_multiplier / sumSnd (team_km acts) * 100) := by
            have h50 : (50 : ℚ) ≤ (if zone.controlled_by_team = some c then
                km * s.zone_defense_multiplier else km) /
                  sumSnd (team_km acts) * 100 :=
              le_trans hcond.1 (min_le_right _ _)
            exact le_min (by norm_num) (le_trans h50 hdiv)
          have hc2 : s.zone_control_threshold_km ≤
              km * s.zone_defense_multiplier :=
            le_trans hcond.2 hidle
          rw [recalc_of_commit s zone acts c km hie' hmaxo hcond.1 hcond.2]
          rw [recalc_second_run s acts c km hie' hmaxo hc1 hc2 _ rfl]
          refine ⟨rfl, ?_, rfl, rfl⟩
          cases hTU : maxBySnd ((user_km acts).filter (fun kv =>
              acts.any (fun a => a.user_id = kv.1 ∧
                a.team_id = some c))) with
          | some u => simp [hTU]
          | none => simp [hTU]
        · have e1 := recalc_of_not_commit s zone acts c km hie' hmaxo hcond
          simp [e1]

/-- Claim C4 witness: concrete instance of the amended stability theorem
at the 6 km / 4 km two-team window. -/
theorem c4_recalc_stable_witness :
    (1 : ℚ) ≤ defaultSettings.zone_defense_multiplier ∧
    (recalculate_zone_control defaultSettings
        (recalculate_zone_control defaultSettings ⟨none, 0, none⟩
          [⟨some "t1", "u1", 6⟩, ⟨some "t2", "u2", 4⟩]).zone
        [⟨some "t1", "u1", 6⟩, ⟨some "t2", "u2", 4⟩]).control_changed
      = false :=
  ⟨by norm_num [defaultSettings],
    (c4_recalc_stable defaultSettings ⟨none, 0, none⟩
      [⟨some "t1", "u1", 6⟩, ⟨some "t2", "u2", 4⟩]
      (by norm_num [defaultSettings])
      (by intro a ha
          rcases List.mem_cons.mp ha with h | h
          · subst h; norm_num
          rcases List.mem_cons.mp h with h2 | h2
          · subst h2; norm_num
          · simp at h2)).2.2.1⟩

/-- Claim C5 (counterexample): with teams tb and ta tied at 5 km and tb
appearing first in the window, recalculation picks tb even though ta is
lexicographically earlier — the tie is broken by dict insertion order,
not lexicographically. -/
theorem c5_tiebreak_counterexample :
    (recalculate_zone_control defaultSettings ⟨none, 0, none⟩
      [⟨some "tb", "u1", 5⟩, ⟨some "ta", "u2", 5⟩]).zone.controlled_by_team
      = some "tb" ∧
    team_km [⟨some "tb", "u1", 5⟩, ⟨some "ta", "u2", 5⟩] =
      [("tb", 5), ("ta", 5)] ∧
    ("ta" : String) < "tb" := by
  refine ⟨?_, by simp [team_km, addKm], ?_⟩
  swap
  · rw [String.lt_iff_toList_lt]
    decide
  have h : recalculate_zone_control defaultSettings ⟨none, 0, none⟩
      [⟨some "tb", "u1", 5⟩, ⟨some "ta", "u2", 5⟩] =
      ⟨⟨some "tb", 50, some "u1"⟩, true, [⟨none, "tb"⟩]⟩ := by
    simp [recalculate_zone_control, defaultSettings, team_km, user_km,
      addKm, maxBySnd, maxStep, sumSnd]
    norm_num [roundTo2, roundHalfEven]
  rw [h]

/-- Claim C5 (amended): the candidate returned by the Python `max` over
the `team_km` dict is a team of maximal summed distance, and among
equally maximal teams it is the one whose entry was inserted first
(every entry strictly before it in the dict is strictly smaller). -/
theorem c5_candidate_first_max (acts : List Contribution) (c : String)
    (km : ℚ) (hmax : maxBySnd (team_km acts) = some (c, km)) :
    (c, km) ∈ team_km acts ∧ (∀ p ∈ team_km acts, p.2 ≤ km) ∧
    ∃ pre post, team_km acts = pre ++ (c, km) :: post ∧
      ∀ p ∈ pre, p.2 < km := by
  obtain ⟨pre, post, heq, hpre, hm⟩ := maxBySnd_spec _ _ hmax
  refine ⟨?_, hm, pre, post, heq, hpre⟩
  rw [heq]
  exact List.mem_append.mpr (Or.inr (List.mem_cons_self _ _))

/-- Claim C5 witness: the tied window instantiates the amended theorem,
with tb (first inserted) selected. -/
theorem c5_candidate_first_max_witness :
    maxBySnd (team_km [⟨some "tb", "u1", 5⟩, ⟨some "ta", "u2", 5⟩]) =
      some ("tb", 5) ∧
    ("tb", (5 : ℚ)) ∈ team_km [⟨some "tb", "u1", 5⟩, ⟨some "ta", "u2", 5⟩] := by
  have hmax : maxBySnd (team_km
      [⟨some "tb", "u1", 5⟩, ⟨some "ta", "u2", 5⟩]) = some ("tb", 5) := by
    simp [team_km, addKm, maxBySnd, maxStep]
  exact ⟨hmax, (c5_candidate_first_max _ _ _ hmax).1⟩

end Ite
